import Mathlib

/-!
Shallow embedding of the messaging backend's relay core (src/server.js, the
Message model's pre-save hook, and the in-memory presence / push-token maps).

The Mongo message collection is modelled as a `List Msg`; `findById` is a
first-match `List.find?` on the `_id` field; `updateOne` on an id filter is a
first-match in-place update; `save` on a fresh document appends.  Timestamps
(`new Date()`) are modelled as a `Nat` parameter `now` threaded into each
handler.  JavaScript truthiness on optional strings (`""`, `null`, `undefined`
are falsy) is modelled by `truthyOS`, and `x || d` on strings by `jsOr`.
The external Expo push validator and transport are parameters (`isTok`,
`pushOk`): they are outside the repository.
-/

namespace Relay

/-- A reaction subdocument: `{ user: String, emoji: String }`. -/
structure Reaction where
  user : String
  emoji : String
deriving DecidableEq, Repr

/-- The embedded `user` subdocument of a stored message. -/
structure MsgUser where
  _id : String
  name : String
  avatar : String
deriving DecidableEq, Repr

/-- A stored chat message document (models/Message.js schema fields the
relay handlers read or write). -/
structure Msg where
  _id : String
  text : String
  image : Option String
  file : Option String
  location : Option String
  user : MsgUser
  createdAt : Nat
  replyTo : Option String
  linkPreview : Option String
  type : String
  reactions : List Reaction
  seenBy : List String
  receiverId : Option String
  isDeleted : Bool
  deletedAt : Option Nat
  deletedBy : Option String
  pushNotificationSent : Bool
  pushSentAt : Option Nat
deriving DecidableEq, Repr

/-- The inbound `user` payload of a `message` event (fields may be absent). -/
structure UserData where
  _id : Option String
  name : Option String
  avatar : Option String
deriving DecidableEq, Repr

/-- The inbound payload of a `message` socket event. -/
structure MessageData where
  _id : Option String
  text : Option String
  image : Option String
  file : Option String
  location : Option String
  user : Option UserData
  createdAt : Option Nat
  replyTo : Option String
  linkPreview : Option String
  type : Option String
  reactions : Option (List Reaction)
  seenBy : Option (List String)
  receiverId : Option String
deriving DecidableEq, Repr

/-- A persisted UserStatus record (models/UserStatus.js). -/
structure UserStatus where
  userId : String
  expoPushToken : Option String
  lastSeen : Nat
deriving DecidableEq, Repr

/-- Observable outputs of the handlers: `socket.emit` events carry the target
socket id, `io.emit` broadcasts do not; `pushAttempt` records a call into the
external push transport. -/
inductive Ev where
  | pendingMessages (sock : String) (msgs : List Msg)
  | broadcastMessage (m : Msg)
  | messageDelivered (sock : String) (messageId : String) (status : String) (savedAt : Option Nat)
  | errorEv (sock : String) (message : String)
  | messageDeleted (messageId : String) (deletedAt : Option Nat) (deletedBy : String)
  | deleteSuccess (sock : String) (messageId : String) (deletedAt : Option Nat)
  | deleteError (sock : String) (messageId : String) (error : String)
  | pushTokenRegistered (sock : String)
  | pushTokenError (sock : String) (error : String)
  | reactionUpdated (m : Msg)
  | pushAttempt (token : String)
deriving DecidableEq, Repr

/-- JavaScript truthiness of an optional string: absent, `null` and `""` are
falsy. -/
def truthyOS : Option String → Bool
  | some s => s != ""
  | none => false

/-- JavaScript `s || d` on an optional string. -/
def jsOr (o : Option String) (d : String) : String :=
  match o with
  | some s => if s = "" then d else s
  | none => d

/-- `const receiverId = senderId === 'user_1' ? 'user_2' : 'user_1'`
(server.js line 178): the closed two-identity receiver convention. -/
def otherOf (senderId : String) : String :=
  if senderId = "user_1" then "user_2" else "user_1"

/-- Mongoose `updateOne({_id: id}, ...)` / `doc.save()` on an existing id:
replace the first document whose `_id` matches. -/
def updateFirstById (store : List Msg) (id : String) (f : Msg → Msg) : List Msg :=
  match store with
  | [] => []
  | m :: t => if m._id == id then f m :: t else m :: updateFirstById t id f

/-- Number of stored documents with a given `_id`. -/
def countById (store : List Msg) (id : String) : Nat :=
  store.countP (fun m => m._id == id)

/-- `MessageSchema.pre('save')` hook (models/Message.js): derive `receiverId`
from the sender when it is falsy. -/
def preSave (m : Msg) : Msg :=
  if ¬ truthyOS m.receiverId ∧ m.user._id ≠ "" then
    { m with receiverId := some (otherOf m.user._id) }
  else m

/-- The sender id read off the inbound payload (`messageData.user._id`). -/
def senderIdOf (md : MessageData) : String :=
  ((md.user.getD ⟨none, none, none⟩)._id).getD ""

/-- Validation in the `message` handler:
`!messageData._id || !messageData.user || !messageData.user._id`. -/
def validMessage (md : MessageData) : Bool :=
  truthyOS md._id && md.user.isSome && truthyOS ((md.user.getD ⟨none, none, none⟩)._id)

/-- The document constructed by `new Message({...})` in the `message` handler
(server.js lines 181-200), including the field defaults it applies. -/
def buildMessage (now : Nat) (md : MessageData) : Msg :=
  let u := md.user.getD ⟨none, none, none⟩
  let senderId := u._id.getD ""
  { _id := md._id.getD ""
    text := md.text.getD ""
    image := md.image
    file := md.file
    location := md.location
    user := { _id := senderId
              name := jsOr u.name "Unknown"
              avatar := jsOr u.avatar "https://i.pravatar.cc/150" }
    createdAt := md.createdAt.getD now
    replyTo := md.replyTo
    linkPreview := md.linkPreview
    type := jsOr md.type "text"
    reactions := md.reactions.getD []
    seenBy := md.seenBy.getD [senderId]
    receiverId := some (otherOf senderId)
    isDeleted := false
    deletedAt := none
    deletedBy := none
    pushNotificationSent := false
    pushSentAt := none }

/-- In-memory string-keyed map (`connectedUsers`, `userPushTokens`): JS object
property assignment — overwrite in place, or append a new key. -/
def pinsert (p : List (String × String)) (k v : String) : List (String × String) :=
  match p with
  | [] => [(k, v)]
  | (a, b) :: t => if a == k then (k, v) :: t else (a, b) :: pinsert t k v

/-- JS `delete obj[k]`. -/
def premove (p : List (String × String)) (k : String) : List (String × String) :=
  p.filter (fun e => e.1 != k)

/-- JS `obj[k]` lookup. -/
def plookup (p : List (String × String)) (k : String) : Option String :=
  (p.find? (fun e => e.1 == k)).map (·.2)

/-- The Mongo query in the `join` handler:
`{receiverId: userId, seenBy: {$ne: userId}, isDeleted: false}`. -/
def pendingQuery (store : List Msg) (userId : String) : List Msg :=
  store.filter (fun m =>
    m.receiverId == some userId && !(m.seenBy.contains userId) && m.isDeleted == false)

/-- `createdAt` order used by `.sort({ createdAt: 1 })`. -/
def leCreated (a b : Msg) : Prop :=
  a.createdAt ≤ b.createdAt

instance : DecidableRel leCreated := fun a b => Nat.decLe a.createdAt b.createdAt

instance : IsTotal Msg leCreated := ⟨fun a b => Nat.le_total a.createdAt b.createdAt⟩

instance : IsTrans Msg leCreated := ⟨fun _ _ _ h h' => Nat.le_trans h h'⟩

/-- The pending batch delivered on `join`: the query result sorted by
`createdAt` ascending. -/
def pendingFor (store : List Msg) (userId : String) : List Msg :=
  List.insertionSort leCreated (pendingQuery store userId)

/-- `socket.on('join')` (server.js lines 123-147): register presence, remember
the userId on the socket, and emit the pending batch to the joining socket only
when it is non-empty.  Returns (presence table, socket's remembered userId,
events). -/
def handleJoin (store : List Msg) (presence : List (String × String))
    (sock userId : String) :
    List (String × String) × Option String × List Ev :=
  (pinsert presence userId sock, some userId,
    let pend := pendingFor store userId
    if pend.isEmpty then [] else [Ev.pendingMessages sock pend])

/-- `socket.on('disconnect')` (server.js lines 414-423): remove the presence
entry keyed by the socket's remembered userId, when that id is truthy. -/
def handleDisconnect (presence : List (String × String)) (sockUserId : Option String) :
    List (String × String) :=
  match sockUserId with
  | some u => if u != "" then premove presence u else presence
  | none => presence

/-- `socket.on('message')` (server.js lines 155-257).  `tokens` is the
in-memory `userPushTokens` map, `isTok` the external `Expo.isExpoPushToken`
validator, `pushOk` the outcome of the external push transport call, `now`
the current time, `sock` the sender's socket.  Returns (store, events). -/
def handleMessage (store : List Msg) (tokens : List (String × String))
    (isTok : String → Bool) (pushOk : Bool) (now : Nat) (sock : String)
    (md : MessageData) : List Msg × List Ev :=
  if validMessage md then
    let mid := md._id.getD ""
    match store.find? (fun m => m._id == mid) with
    | some _ => (store, [Ev.messageDelivered sock mid "duplicate" (some now)])
    | none =>
      let m := preSave (buildMessage now md)
      let store1 := store ++ [m]
      let base := [Ev.broadcastMessage m,
                   Ev.messageDelivered sock m._id "delivered" (some now)]
      match plookup tokens (otherOf (senderIdOf md)) with
      | some tok =>
        if isTok tok then
          if pushOk then
            (updateFirstById store1 m._id
               (fun x => { x with pushNotificationSent := true, pushSentAt := some now }),
             base ++ [Ev.pushAttempt tok])
          else (store1, base ++ [Ev.pushAttempt tok])
        else (store1, base)
      | none => (store1, base)
  else
    (store, [Ev.errorEv sock "Failed to save message"])

/-- The `$set` applied by the speculative `updateOne` in the delete handler. -/
def applyDeleteSet (now : Nat) (userId : String) (m : Msg) : Msg :=
  { m with isDeleted := true, deletedAt := some now, deletedBy := some userId }

/-- The `$set` applied by the revert `updateOne` in the delete handler. -/
def revertDeleteSet (m : Msg) : Msg :=
  { m with isDeleted := false, deletedAt := none, deletedBy := none }

/-- Receiver resolution in the delete handler (server.js lines 305-308):
keep a truthy stored `receiverId`, otherwise derive it from the sender when
the sender id is truthy. -/
def resolveReceiver (m : Msg) : Option String :=
  if truthyOS m.receiverId then m.receiverId
  else if m.user._id ≠ "" then some (otherOf m.user._id)
  else m.receiverId

/-- `socket.on('delete-message')` (server.js lines 260-352).  The speculative
`updateOne` reports `nModified = 0` exactly when no document matched or the
matched document is unchanged by the `$set` (mongoose 5 semantics); in that
branch the handler distinguishes "not found" from "already deleted" via
`findById`.  Otherwise it fetches the updated document, checks authorization
(sender or resolved receiver), reverts on failure, and broadcasts on
success. -/
def handleDelete (store : List Msg) (now : Nat) (sock messageId userId : String) :
    List Msg × List Ev :=
  match store.find? (fun m => m._id == messageId) with
  | none => (store, [Ev.deleteError sock messageId "Message not found"])
  | some m0 =>
    if applyDeleteSet now userId m0 = m0 then
      (store, [Ev.deleteSuccess sock messageId m0.deletedAt])
    else
      let store1 := updateFirstById store messageId (applyDeleteSet now userId)
      match store1.find? (fun m => m._id == messageId) with
      | none => (store1, [Ev.deleteError sock messageId "TypeError"])
      | some m1 =>
        let isSender := m1.user._id == userId
        let isReceiver := resolveReceiver m1 == some userId
        if !(isSender || isReceiver) then
          (updateFirstById store1 messageId revertDeleteSet,
           [Ev.deleteError sock messageId "Unauthorized to delete this message"])
        else
          (store1,
           [Ev.messageDeleted messageId m1.deletedAt userId,
            Ev.deleteSuccess sock messageId m1.deletedAt])

/-- `findOneAndUpdate({userId}, {...}, {upsert: true})` on UserStatus. -/
def upsertStatus (sts : List UserStatus) (userId token : String) (now : Nat) :
    List UserStatus :=
  match sts with
  | [] => [{ userId := userId, expoPushToken := some token, lastSeen := now }]
  | s :: t =>
    if s.userId == userId then
      { userId := userId, expoPushToken := some token, lastSeen := now } :: t
    else s :: upsertStatus t userId token now

/-- `socket.on('register-push-token')` (server.js lines 355-386): validate the
token first; only on success mutate the in-memory map and upsert the persisted
record.  Returns (token map, statuses, events). -/
def handleRegisterToken (tokens : List (String × String)) (sts : List UserStatus)
    (isTok : String → Bool) (now : Nat) (sock userId token : String) :
    List (String × String) × List UserStatus × List Ev :=
  if ¬ isTok token then
    (tokens, sts, [Ev.pushTokenError sock "Invalid token format"])
  else
    (pinsert tokens userId token, upsertStatus sts userId token now,
     [Ev.pushTokenRegistered sock])

/-- `socket.on('message-reaction')` (server.js lines 389-407): on a found,
non-deleted message, drop that user's prior reactions, append the new one when
the emoji is truthy, save (running the pre-save hook) and broadcast. -/
def handleReaction (store : List Msg) (messageId userId : String)
    (emoji : Option String) : List Msg × List Ev :=
  match store.find? (fun m => m._id == messageId) with
  | some m =>
    if m.isDeleted = false then
      let rs := m.reactions.filter (fun r => r.user != userId)
      let rs2 := if truthyOS emoji then rs ++ [⟨userId, emoji.getD ""⟩] else rs
      let m2 := preSave { m with reactions := rs2 }
      (updateFirstById store messageId (fun _ => m2), [Ev.reactionUpdated m2])
    else (store, [])
  | none => (store, [])

/-- At most one reaction entry per user. -/
def atMostOnePerUser (rs : List Reaction) : Prop :=
  rs.Pairwise (fun a b => a.user ≠ b.user)

/-! ### Concrete example inputs used by witnesses and counterexamples -/

/-- A valid send payload: id `m1` from `user_1`, no client `seenBy`, no client
`receiverId`. -/
def mdW : MessageData :=
  { _id := some "m1", text := some "hi", image := none, file := none, location := none,
    user := some { _id := some "user_1", name := some "Al", avatar := none },
    createdAt := some 10, replyTo := none, linkPreview := none, type := none,
    reactions := none, seenBy := none, receiverId := none }

/-- The same payload with a client-supplied `seenBy` that omits the sender. -/
def mdSeen : MessageData := { mdW with seenBy := some ["user_2"] }

/-- A payload from a third-party sender carrying a client-supplied `receiverId`. -/
def mdRecv : MessageData :=
  { mdW with user := some { _id := some "alice", name := some "Alice", avatar := none },
             receiverId := some "zzz" }

/-- A stored, not-deleted message `m1` from `user_1` to `user_2`. -/
def mLive : Msg :=
  { _id := "m1", text := "hi", image := none, file := none, location := none,
    user := { _id := "user_1", name := "Al", avatar := "a" },
    createdAt := 10, replyTo := none, linkPreview := none, type := "text",
    reactions := [], seenBy := ["user_1"], receiverId := some "user_2",
    isDeleted := false, deletedAt := none, deletedBy := none,
    pushNotificationSent := false, pushSentAt := none }

/-- The same message already soft-deleted by `user_1` at time 1. -/
def mDel : Msg :=
  { mLive with isDeleted := true, deletedAt := some 1, deletedBy := some "user_1" }

/-! ### Basic lemmas about the store primitives -/

theorem find?_append_none {α : Type} {l₁ l₂ : List α} {p : α → Bool}
    (h : l₁.find? p = none) : (l₁ ++ l₂).find? p = l₂.find? p := by
  induction l₁ with
  | nil => simp
  | cons a t ih =>
    rw [List.find?_cons] at h
    cases hpa : p a with
    | true => rw [hpa] at h; exact absurd h (by simp)
    | false =>
      rw [hpa] at h
      rw [List.cons_append, List.find?_cons, hpa]
      exact ih h

theorem countById_eq_zero_of_find?_none {s : List Msg} {i : String}
    (h : s.find? (fun m => m._id == i) = none) : countById s i = 0 := by
  unfold countById
  rw [List.countP_eq_zero]
  intro m hm
  exact List.find?_eq_none.mp h m hm

theorem countById_append (s t : List Msg) (i : String) :
    countById (s ++ t) i = countById s i + countById t i := by
  unfold countById
  exact List.countP_append _ _ _

theorem updateFirstById_cons (a : Msg) (t : List Msg) (id : String) (f : Msg → Msg) :
    updateFirstById (a :: t) id f
      = if a._id == id then f a :: t else a :: updateFirstById t id f := rfl

theorem updateFirstById_of_find?_none {s : List Msg} {id : String} {f : Msg → Msg}
    (h : s.find? (fun m => m._id == id) = none) : updateFirstById s id f = s := by
  induction s with
  | nil => rfl
  | cons a t ih =>
    by_cases hpa : (a._id == id) = true
    · rw [List.find?_cons_of_pos (p := fun (m : Msg) => m._id == id) _ hpa] at h
      simp at h
    · rw [List.find?_cons_of_neg (p := fun (m : Msg) => m._id == id) _ hpa] at h
      rw [updateFirstById_cons, if_neg hpa, ih h]

theorem find?_updateFirstById {s : List Msg} {id : String} {f : Msg → Msg} {m : Msg}
    (h : s.find? (fun m => m._id == id) = some m)
    (hf : ((f m)._id == id) = true) :
    (updateFirstById s id f).find? (fun x => x._id == id) = some (f m) := by
  induction s with
  | nil => simp at h
  | cons a t ih =>
    by_cases hpa : (a._id == id) = true
    · rw [List.find?_cons_of_pos (p := fun (m : Msg) => m._id == id) _ hpa] at h
      injection h with h
      subst h
      rw [updateFirstById_cons, if_pos hpa, List.find?_cons_of_pos (p := fun (x : Msg) => x._id == id) _ hf]
    · rw [List.find?_cons_of_neg (p := fun (m : Msg) => m._id == id) _ hpa] at h
      rw [updateFirstById_cons, if_neg hpa, List.find?_cons_of_neg (p := fun (m : Msg) => m._id == id) _ hpa]
      exact ih h

theorem updateFirstById_comp {s : List Msg} {id : String} {f g : Msg → Msg}
    (hf : ∀ x, (x._id == id) = true → ((f x)._id == id) = true) :
    updateFirstById (updateFirstById s id f) id g
      = updateFirstById s id (fun x => g (f x)) := by
  induction s with
  | nil => rfl
  | cons a t ih =>
    by_cases hpa : (a._id == id) = true
    · rw [updateFirstById_cons, if_pos hpa, updateFirstById_cons, if_pos (hf a hpa),
          updateFirstById_cons, if_pos hpa]
    · rw [updateFirstById_cons, if_neg hpa, updateFirstById_cons, if_neg hpa,
          updateFirstById_cons, if_neg hpa, ih]

theorem updateFirstById_self {s : List Msg} {id : String} {f : Msg → Msg} {m : Msg}
    (h : s.find? (fun m => m._id == id) = some m) (hm : f m = m) :
    updateFirstById s id f = s := by
  induction s with
  | nil => rfl
  | cons a t ih =>
    by_cases hpa : (a._id == id) = true
    · rw [List.find?_cons_of_pos (p := fun (m : Msg) => m._id == id) _ hpa] at h
      injection h with h
      subst h
      rw [updateFirstById_cons, if_pos hpa, hm]
    · rw [List.find?_cons_of_neg (p := fun (m : Msg) => m._id == id) _ hpa] at h
      rw [updateFirstById_cons, if_neg hpa, ih h]

theorem countById_updateFirstById {s : List Msg} {id : String} {f : Msg → Msg}
    (hf : ∀ x, (f x)._id = x._id) (q : String) :
    countById (updateFirstById s id f) q = countById s q := by
  induction s with
  | nil => rfl
  | cons a t ih =>
    by_cases hpa : (a._id == id) = true
    · rw [updateFirstById_cons, if_pos hpa]
      unfold countById
      rw [List.countP_cons, List.countP_cons, hf a]
    · rw [updateFirstById_cons, if_neg hpa]
      unfold countById at ih ⊢
      rw [List.countP_cons, List.countP_cons, ih]

theorem pinsert_cons (a : String × String) (t : List (String × String)) (k v : String) :
    pinsert (a :: t) k v
      = if a.1 == k then (k, v) :: t else (a.1, a.2) :: pinsert t k v := rfl

theorem plookup_pinsert (p : List (String × String)) (k v : String) :
    plookup (pinsert p k v) k = some v := by
  induction p with
  | nil => simp [pinsert, plookup]
  | cons a t ih =>
    by_cases hak : (a.1 == k) = true
    · rw [pinsert_cons, if_pos hak]
      simp [plookup]
    · rw [pinsert_cons, if_neg hak]
      unfold plookup at ih ⊢
      rw [List.find?_cons_of_neg (p := fun (e : String × String) => e.1 == k) _ hak]
      exact ih

theorem preSave_of_truthy {m : Msg} (h : truthyOS m.receiverId = true) : preSave m = m := by
  unfold preSave
  rw [if_neg]
  intro hc
  rw [h] at hc
  exact hc.1 rfl

theorem truthyOS_otherOf (s : String) : truthyOS (some (otherOf s)) = true := by
  unfold otherOf
  split <;> rfl

theorem buildMessage_receiverId (now : Nat) (md : MessageData) :
    (buildMessage now md).receiverId = some (otherOf (senderIdOf md)) := rfl

theorem buildMessage_id (now : Nat) (md : MessageData) :
    (buildMessage now md)._id = md._id.getD "" := rfl

theorem preSave_buildMessage (now : Nat) (md : MessageData) :
    preSave (buildMessage now md) = buildMessage now md :=
  preSave_of_truthy (by rw [buildMessage_receiverId]; exact truthyOS_otherOf _)

theorem plookup_premove (p : List (String × String)) (k : String) :
    plookup (premove p k) k = none := by
  unfold plookup premove
  have h : (List.filter (fun e => e.1 != k) p).find? (fun e => e.1 == k) = none := by
    rw [List.find?_eq_none]
    intro x hx
    have hx2 := (List.mem_filter.mp hx).2
    simp only [bne_iff_ne, ne_eq] at hx2
    simp [hx2]
  rw [h]
  rfl

/-! ### The send path -/

theorem handleMessage_existing {store : List Msg} {tokens : List (String × String)}
    {isTok : String → Bool} {pushOk : Bool} {now : Nat} {sock : String}
    {md : MessageData} {i : String} {m : Msg}
    (hva : validMessage md = true) (hid : md._id = some i)
    (hdup : store.find? (fun x => x._id == i) = some m) :
    handleMessage store tokens isTok pushOk now sock md
      = (store, [Ev.messageDelivered sock i "duplicate" (some now)]) := by
  unfold handleMessage
  rw [hva, hid]
  simp only [Option.getD_some, if_true]
  rw [hdup]

theorem handleMessage_fresh {store : List Msg} {tokens : List (String × String)}
    {isTok : String → Bool} {pushOk : Bool} {now : Nat} {sock : String}
    {md : MessageData} {i : String}
    (hva : validMessage md = true) (hid : md._id = some i)
    (hfresh : store.find? (fun m => m._id == i) = none) :
    ∃ m', ((handleMessage store tokens isTok pushOk now sock md).1.find?
            (fun m => m._id == i) = some m')
      ∧ m'.seenBy = (buildMessage now md).seenBy
      ∧ m'.isDeleted = (buildMessage now md).isDeleted
      ∧ m'.createdAt = (buildMessage now md).createdAt
      ∧ m'.receiverId = (buildMessage now md).receiverId
      ∧ countById (handleMessage store tokens isTok pushOk now sock md).1 i = 1 := by
  have hbmid : ((buildMessage now md)._id == i) = true := by
    rw [buildMessage_id, hid]
    simp
  have hfind1 : (store ++ [buildMessage now md]).find? (fun m => m._id == i)
      = some (buildMessage now md) := by
    rw [find?_append_none hfresh]
    exact List.find?_cons_of_pos (p := fun (m : Msg) => m._id == i) _ hbmid
  have hcount1 : countById (store ++ [buildMessage now md]) i = 1 := by
    rw [countById_append, countById_eq_zero_of_find?_none hfresh]
    unfold countById
    rw [List.countP_cons, hbmid]
    rfl
  unfold handleMessage
  rw [hva, hid]
  simp only [Option.getD_some, if_true]
  rw [hfresh, preSave_buildMessage]
  dsimp only
  rcases htok : plookup tokens (otherOf (senderIdOf md)) with _ | tok
  · dsimp only
    exact ⟨buildMessage now md, hfind1, rfl, rfl, rfl, rfl, hcount1⟩
  · dsimp only
    by_cases hit : isTok tok = true
    · rw [if_pos hit]
      by_cases hp : pushOk = true
      · rw [if_pos hp]
        dsimp only
        rw [buildMessage_id, hid]
        simp only [Option.getD_some]
        refine ⟨{ buildMessage now md with pushNotificationSent := true, pushSentAt := some now },
          ?_, rfl, rfl, rfl, rfl, ?_⟩
        · exact find?_updateFirstById
            (f := fun x => { x with pushNotificationSent := true, pushSentAt := some now })
            hfind1 hbmid
        · rw [countById_updateFirstById
            (f := fun x => { x with pushNotificationSent := true, pushSentAt := some now })
            (fun x => rfl)]
          exact hcount1
      · rw [if_neg hp]
        dsimp only
        exact ⟨buildMessage now md, hfind1, rfl, rfl, rfl, rfl, hcount1⟩
    · rw [if_neg hit]
      dsimp only
      exact ⟨buildMessage now md, hfind1, rfl, rfl, rfl, rfl, hcount1⟩

theorem preSave_id (m : Msg) : (preSave m)._id = m._id := by
  unfold preSave
  split <;> rfl

theorem preSave_reactions (m : Msg) : (preSave m).reactions = m.reactions := by
  unfold preSave
  split <;> rfl

/-! ### The delete path -/

theorem applyDeleteSet_ne_of_not_deleted {now : Nat} {userId : String} {m : Msg}
    (hnd : m.isDeleted = false) : ¬ (applyDeleteSet now userId m = m) := by
  intro h
  have h2 := congrArg Msg.isDeleted h
  unfold applyDeleteSet at h2
  dsimp at h2
  rw [hnd] at h2
  cases h2

theorem revert_applyDeleteSet {now : Nat} {userId : String} {m : Msg}
    (hnd : m.isDeleted = false) (hda : m.deletedAt = none) (hdb : m.deletedBy = none) :
    revertDeleteSet (applyDeleteSet now userId m) = m := by
  obtain ⟨f1, f2, f3, f4, f5, f6, f7, f8, f9, f10, f11, f12, f13, fDel, fAt, fBy, f17, f18⟩ := m
  dsimp at hnd hda hdb
  subst hnd
  subst hda
  subst hdb
  rfl

/-- The delete handler on an existing, not-yet-deleted message and an
unauthorized requester: the speculative soft delete is applied, detected as
unauthorized, reverted first-match-in-place, and answered with the Unauthorized
delete-error. -/
theorem handleDelete_unauthorized {store : List Msg} {now : Nat}
    {sock mid userId : String} {m : Msg}
    (hfind : store.find? (fun x => x._id == mid) = some m)
    (hnd : m.isDeleted = false) (hda : m.deletedAt = none) (hdb : m.deletedBy = none)
    (hns : m.user._id ≠ userId) (hnr : resolveReceiver m ≠ some userId) :
    handleDelete store now sock mid userId
      = (store, [Ev.deleteError sock mid "Unauthorized to delete this message"]) := by
  have hm : (m._id == mid) = true := List.find?_some (p := fun (x : Msg) => x._id == mid) hfind
  have hfind1 := find?_updateFirstById (f := applyDeleteSet now userId) hfind hm
  have hsb : (m.user._id == userId) = false := by
    rw [beq_eq_false_iff_ne]
    exact hns
  have hrb : (resolveReceiver m == some userId) = false := by
    rw [beq_eq_false_iff_ne]
    exact hnr
  unfold handleDelete
  rw [hfind]
  dsimp only
  rw [if_neg (applyDeleteSet_ne_of_not_deleted hnd), hfind1]
  dsimp only
  have hcond : (!((applyDeleteSet now userId m).user._id == userId ||
      resolveReceiver (applyDeleteSet now userId m) == some userId)) = true := by
    show (!(m.user._id == userId || resolveReceiver m == some userId)) = true
    rw [hsb, hrb]
    rfl
  rw [if_pos hcond]
  rw [updateFirstById_comp (f := applyDeleteSet now userId) (g := revertDeleteSet) (fun x hx => hx)]
  rw [updateFirstById_self hfind (revert_applyDeleteSet hnd hda hdb)]

/-! ### Claims about the send path -/

/-- C1: for a valid send event whose id is not yet stored, processing it and then
processing the same event again yields exactly one persisted record with that id;
the second attempt is answered to its sender with a single message-delivered
acknowledgment of status duplicate, the handler stops there, the store is left
unchanged (no re-persist) and no broadcast is emitted. -/
theorem c1_duplicate_send_suppressed (store : List Msg)
    (tokens tokens2 : List (String × String)) (isTok isTok2 : String → Bool)
    (pushOk pushOk2 : Bool) (now1 now2 : Nat) (sock1 sock2 : String)
    (md : MessageData) (i : String)
    (hva : validMessage md = true) (hid : md._id = some i)
    (hfresh : store.find? (fun m => m._id == i) = none) :
    countById (handleMessage store tokens isTok pushOk now1 sock1 md).1 i = 1 ∧
    handleMessage (handleMessage store tokens isTok pushOk now1 sock1 md).1
        tokens2 isTok2 pushOk2 now2 sock2 md
      = ((handleMessage store tokens isTok pushOk now1 sock1 md).1,
         [Ev.messageDelivered sock2 i "duplicate" (some now2)]) := by
  obtain ⟨m', hfind, -, -, -, -, hcount⟩ := handleMessage_fresh hva hid hfresh
  exact ⟨hcount, handleMessage_existing hva hid hfind⟩

/-- C1 witness: the theorem instantiated at the concrete payload `mdW` on an
empty store. -/
theorem c1_witness :
    countById (handleMessage [] [] (fun _ => false) false 5 "a" mdW).1 "m1" = 1 ∧
    handleMessage (handleMessage [] [] (fun _ => false) false 5 "a" mdW).1
        [] (fun _ => false) false 7 "b" mdW
      = ((handleMessage [] [] (fun _ => false) false 5 "a" mdW).1,
         [Ev.messageDelivered "b" "m1" "duplicate" (some 7)]) :=
  c1_duplicate_send_suppressed [] [] [] (fun _ => false) (fun _ => false)
    false false 5 7 "a" "b" mdW "m1" rfl rfl rfl

/-- C5: refutation at a concrete input — the valid fresh send `mdSeen`, whose
client supplies `seenBy = ["user_2"]`, is persisted with exactly that list, so
the persisted `seenBy` is not the one-element list of the sender's id and the
sender `user_1` is not a member of `seenBy` at creation. -/
theorem c5_counterexample :
    ((handleMessage [] [] (fun _ => false) false 99 "s" mdSeen).1.map Msg.seenBy)
        = [["user_2"]] ∧
    ¬ ((handleMessage [] [] (fun _ => false) false 99 "s" mdSeen).1.map Msg.seenBy)
        = [["user_1"]] := by
  constructor
  · rfl
  · decide

/-- C5 (amended): for every valid send event that persists a new message, the
persisted record has `seenBy` equal to the client-supplied list when one is
supplied and to the one-element list containing the sender's id otherwise,
`isDeleted = false`, and `createdAt` equal to the client-provided timestamp when
one was supplied and the server's current time otherwise. -/
theorem c5_persisted_record_fields (store : List Msg) (tokens : List (String × String))
    (isTok : String → Bool) (pushOk : Bool) (now : Nat) (sock : String)
    (md : MessageData) (i : String)
    (hva : validMessage md = true) (hid : md._id = some i)
    (hfresh : store.find? (fun m => m._id == i) = none) :
    (((handleMessage store tokens isTok pushOk now sock md).1.find?
        (fun m => m._id == i)).map Msg.seenBy
      = some (md.seenBy.getD [senderIdOf md])) ∧
    (((handleMessage store tokens isTok pushOk now sock md).1.find?
        (fun m => m._id == i)).map Msg.isDeleted = some false) ∧
    (((handleMessage store tokens isTok pushOk now sock md).1.find?
        (fun m => m._id == i)).map Msg.createdAt
      = some (md.createdAt.getD now)) := by
  obtain ⟨m', hfind, hs, hd, hc, -, -⟩ := handleMessage_fresh hva hid hfresh
  refine ⟨?_, ?_, ?_⟩
  · rw [hfind, Option.map_some', hs]
    rfl
  · rw [hfind, Option.map_some', hd]
    rfl
  · rw [hfind, Option.map_some', hc]
    rfl

/-- C5 witness: the amended theorem instantiated at the concrete payload
`mdSeen` on an empty store. -/
theorem c5_witness :
    (((handleMessage [] [] (fun _ => false) false 99 "s" mdSeen).1.find?
        (fun m => m._id == "m1")).map Msg.seenBy = some ["user_2"]) ∧
    (((handleMessage [] [] (fun _ => false) false 99 "s" mdSeen).1.find?
        (fun m => m._id == "m1")).map Msg.isDeleted = some false) ∧
    (((handleMessage [] [] (fun _ => false) false 99 "s" mdSeen).1.find?
        (fun m => m._id == "m1")).map Msg.createdAt = some 10) :=
  c5_persisted_record_fields [] [] (fun _ => false) false 99 "s" mdSeen "m1" rfl rfl rfl

/-- C6: a valid fresh send event whose payload carries no receiverId is persisted
with receiverId `otherOf(senderId)`; the convention maps `user_1` to `user_2`
and `user_2` to `user_1`. -/
theorem c6_receiver_derived_when_absent (store : List Msg)
    (tokens : List (String × String)) (isTok : String → Bool) (pushOk : Bool)
    (now : Nat) (sock : String) (md : MessageData) (i : String)
    (hva : validMessage md = true) (hid : md._id = some i)
    (hfresh : store.find? (fun m => m._id == i) = none)
    (_hnorecv : md.receiverId = none) :
    (((handleMessage store tokens isTok pushOk now sock md).1.find?
        (fun m => m._id == i)).map Msg.receiverId
      = some (some (otherOf (senderIdOf md)))) ∧
    otherOf "user_1" = "user_2" ∧ otherOf "user_2" = "user_1" := by
  obtain ⟨m', hfind, -, -, -, hr, -⟩ := handleMessage_fresh hva hid hfresh
  refine ⟨?_, rfl, rfl⟩
  rw [hfind, Option.map_some', hr]
  rfl

/-- C6 witness: the theorem instantiated at the concrete payload `mdW` (which
carries no receiverId) on an empty store. -/
theorem c6_witness :
    (((handleMessage [] [] (fun _ => false) false 99 "s" mdW).1.find?
        (fun m => m._id == "m1")).map Msg.receiverId = some (some "user_2")) ∧
    otherOf "user_1" = "user_2" ∧ otherOf "user_2" = "user_1" :=
  c6_receiver_derived_when_absent [] [] (fun _ => false) false 99 "s" mdW "m1"
    rfl rfl rfl rfl

/-- C9: for every valid fresh send event the persisted receiverId is computed
from the sender alone as `otherOf(senderId)` — any client-supplied receiverId is
ignored and overwritten — and every sender id other than `user_1` is mapped to
receiver `user_1`. -/
theorem c9_receiver_overwritten (store : List Msg)
    (tokens : List (String × String)) (isTok : String → Bool) (pushOk : Bool)
    (now : Nat) (sock : String) (md : MessageData) (i : String)
    (hva : validMessage md = true) (hid : md._id = some i)
    (hfresh : store.find? (fun m => m._id == i) = none) :
    (((handleMessage store tokens isTok pushOk now sock md).1.find?
        (fun m => m._id == i)).map Msg.receiverId
      = some (some (otherOf (senderIdOf md)))) ∧
    (∀ s : String, s ≠ "user_1" → otherOf s = "user_1") := by
  obtain ⟨m', hfind, -, -, -, hr, -⟩ := handleMessage_fresh hva hid hfresh
  constructor
  · rw [hfind, Option.map_some', hr]
    rfl
  · intro s hs
    unfold otherOf
    rw [if_neg hs]

/-- C9 witness: the theorem instantiated at the concrete payload `mdRecv`, a
send from `alice` carrying client receiverId `zzz`, persisted with receiverId
`user_1`. -/
theorem c9_witness :
    (((handleMessage [] [] (fun _ => false) false 99 "s" mdRecv).1.find?
        (fun m => m._id == "m1")).map Msg.receiverId = some (some "user_1")) ∧
    otherOf "alice" = "user_1" :=
  ⟨(c9_receiver_overwritten [] [] (fun _ => false) false 99 "s" mdRecv "m1"
      rfl rfl rfl).1,
   (c9_receiver_overwritten [] [] (fun _ => false) false 99 "s" mdRecv "m1"
      rfl rfl rfl).2 "alice" (by decide)⟩

/-! ### Claims about the delete path -/

/-- C2: refutation at a concrete input — the delete request by `eve` (neither
sender `user_1` nor receiver `user_2`) against the already soft-deleted stored
message `mDel` is answered Unauthorized, but the revert clears the soft-delete
fields: the final store holds the message with `isDeleted = false`, so the
message's state is not exactly what it was before the attempt. -/
theorem c2_counterexample :
    (handleDelete [mDel] 2 "s" "m1" "eve").2
        = [Ev.deleteError "s" "m1" "Unauthorized to delete this message"] ∧
    (handleDelete [mDel] 2 "s" "m1" "eve").1.map Msg.isDeleted = [false] ∧
    mDel.isDeleted = true ∧
    ¬ (handleDelete [mDel] 2 "s" "m1" "eve").1 = [mDel] := by
  refine ⟨rfl, rfl, rfl, ?_⟩
  decide

/-- C2 (amended): for every stored message that is not already soft-deleted
(its soft-delete fields unset) and every requesting userId that is neither the
message's sender nor its resolved receiver, the delete-message event is rejected
with the Unauthorized delete-error and the store is left exactly as it was — the
speculative soft delete is fully reverted.  (When the message was already
soft-deleted, the attempt is still rejected with Unauthorized but the revert
clears `isDeleted`/`deletedAt`/`deletedBy` instead of restoring them.) -/
theorem c2_unauthorized_delete_reverted (store : List Msg) (now : Nat)
    (sock mid userId : String) (m : Msg)
    (hfind : store.find? (fun x => x._id == mid) = some m)
    (hnd : m.isDeleted = false) (hda : m.deletedAt = none) (hdb : m.deletedBy = none)
    (hns : m.user._id ≠ userId) (hnr : resolveReceiver m ≠ some userId) :
    handleDelete store now sock mid userId
      = (store, [Ev.deleteError sock mid "Unauthorized to delete this message"]) :=
  handleDelete_unauthorized hfind hnd hda hdb hns hnr

/-- C2 witness: the amended theorem instantiated at the live stored message
`mLive` and the unauthorized requester `eve`. -/
theorem c2_witness :
    handleDelete [mLive] 2 "s" "m1" "eve"
      = ([mLive], [Ev.deleteError "s" "m1" "Unauthorized to delete this message"]) :=
  c2_unauthorized_delete_reverted [mLive] 2 "s" "m1" "eve" mLive rfl rfl rfl rfl
    (by decide) (by decide)

/-- C3: the code's behavior at the failing input — re-deleting the message
`mDel`, already soft-deleted at time 1 by `user_1`, again at time 2 by the same
authorized `user_1`, does not return the original deletion metadata unchanged:
the `$set` re-stamps `deletedAt` to 2 (so `nModified` is not 0 and the handler's
"already deleted" branch is skipped), the stored record changes, and
`message-deleted` is re-broadcast, contradicting the claimed idempotence. -/
theorem c3_code_behavior :
    (handleDelete [mDel] 2 "s" "m1" "user_1").2
        = [Ev.messageDeleted "m1" (some 2) "user_1",
           Ev.deleteSuccess "s" "m1" (some 2)] ∧
    (handleDelete [mDel] 2 "s" "m1" "user_1").1.map Msg.deletedAt = [some 2] ∧
    mDel.deletedAt = some 1 := by
  refine ⟨rfl, rfl, rfl⟩

/-! ### Claim about the join path -/

/-- C4: for every user that joins, the pending-messages event is emitted to the
joining socket alone, exactly when the pending set is non-empty, carrying the
full batch; the batch is sorted by createdAt ascending and contains precisely
the stored messages addressed to the user, not yet seen by the user and not
deleted. -/
theorem c4_join_pending_batch (store : List Msg) (presence : List (String × String))
    (sock userId : String) :
    (pendingFor store userId = [] → (handleJoin store presence sock userId).2.2 = []) ∧
    (pendingFor store userId ≠ [] →
      (handleJoin store presence sock userId).2.2
        = [Ev.pendingMessages sock (pendingFor store userId)]) ∧
    List.Sorted leCreated (pendingFor store userId) ∧
    (∀ m : Msg, m ∈ pendingFor store userId ↔
      (m ∈ store ∧ m.receiverId = some userId ∧ userId ∉ m.seenBy ∧
        m.isDeleted = false)) := by
  refine ⟨?_, ?_, ?_, ?_⟩
  · intro h
    show (if (pendingFor store userId).isEmpty then []
          else [Ev.pendingMessages sock (pendingFor store userId)]) = []
    rw [h]
    rfl
  · intro h
    show (if (pendingFor store userId).isEmpty then []
          else [Ev.pendingMessages sock (pendingFor store userId)])
        = [Ev.pendingMessages sock (pendingFor store userId)]
    rw [if_neg]
    simp [List.isEmpty_iff, h]
  · exact List.sorted_insertionSort leCreated (pendingQuery store userId)
  · intro m
    unfold pendingFor
    rw [List.mem_insertionSort]
    unfold pendingQuery
    rw [List.mem_filter]
    simp [and_assoc]

/-- C4 witness: the theorem instantiated at the store `[mLive]` and the joining
user `user_2`, whose pending set is non-empty. -/
theorem c4_witness :
    (handleJoin [mLive] [] "s" "user_2").2.2
        = [Ev.pendingMessages "s" (pendingFor [mLive] "user_2")] ∧
    (mLive ∈ pendingFor [mLive] "user_2" ↔
      (mLive ∈ [mLive] ∧ mLive.receiverId = some "user_2" ∧
        "user_2" ∉ mLive.seenBy ∧ mLive.isDeleted = false)) :=
  ⟨(c4_join_pending_batch [mLive] [] "s" "user_2").2.1 (by decide),
   (c4_join_pending_batch [mLive] [] "s" "user_2").2.2.2 mLive⟩

/-! ### Claim about push-token registration -/

/-- C7: for every userId and every push token the external validator rejects,
the register-push-token event is answered with the invalid-token error and
mutates nothing: the in-memory token map and the persisted UserStatus collection
are returned exactly as they were. -/
theorem c7_invalid_token_no_mutation (tokens : List (String × String))
    (sts : List UserStatus) (isTok : String → Bool) (now : Nat)
    (sock userId token : String) (h : isTok token = false) :
    handleRegisterToken tokens sts isTok now sock userId token
      = (tokens, sts, [Ev.pushTokenError sock "Invalid token format"]) := by
  unfold handleRegisterToken
  rw [if_pos]
  simp [h]

/-- C7 witness: the theorem instantiated with a rejecting validator, a non-empty
token map and statuses collection. -/
theorem c7_witness :
    handleRegisterToken [("u", "t0")]
        [{ userId := "u", expoPushToken := some "t0", lastSeen := 1 }]
        (fun _ => false) 3 "s" "u" "bad"
      = ([("u", "t0")],
         [{ userId := "u", expoPushToken := some "t0", lastSeen := 1 }],
         [Ev.pushTokenError "s" "Invalid token format"]) :=
  c7_invalid_token_no_mutation [("u", "t0")]
    [{ userId := "u", expoPushToken := some "t0", lastSeen := 1 }]
    (fun _ => false) 3 "s" "u" "bad" rfl

/-! ### Claim about reactions -/

/-- C8: for every stored non-deleted message, a reaction event removes all prior
reaction entries by that user and appends a single new (user, emoji) entry
exactly when the emoji is truthy (an absent emoji clears the user's reaction):
in the stored record after the event, that user's entries are exactly the new
singleton or empty, all other users' entries are unchanged, and the at-most-one-
entry-per-user invariant is preserved. -/
theorem c8_reaction_replace (store : List Msg) (messageId userId : String)
    (emoji : Option String) (m : Msg)
    (hfind : store.find? (fun x => x._id == messageId) = some m)
    (hnd : m.isDeleted = false) :
    ∃ m2, ((handleReaction store messageId userId emoji).1.find?
            (fun x => x._id == messageId) = some m2) ∧
      m2.reactions.filter (fun r => r.user == userId)
        = (if truthyOS emoji then [⟨userId, emoji.getD ""⟩] else []) ∧
      m2.reactions.filter (fun r => r.user != userId)
        = m.reactions.filter (fun r => r.user != userId) ∧
      (atMostOnePerUser m.reactions → atMostOnePerUser m2.reactions) := by
  have hm : (m._id == messageId) = true :=
    List.find?_some (p := fun (x : Msg) => x._id == messageId) hfind
  set rs := m.reactions.filter (fun r => r.user != userId) with hrs
  set rs2 := if truthyOS emoji then rs ++ [⟨userId, emoji.getD ""⟩] else rs with hrs2
  set m2 := preSave { m with reactions := rs2 } with hm2
  have hm2id : (m2._id == messageId) = true := by
    rw [hm2, preSave_id]
    exact hm
  have hm2r : m2.reactions = rs2 := by
    rw [hm2, preSave_reactions]
  have hrsne : ∀ r : Reaction, r ∈ rs → (r.user != userId) = true := by
    intro r hr
    exact (List.mem_filter.mp hr).2
  refine ⟨m2, ?_, ?_, ?_, ?_⟩
  · unfold handleReaction
    rw [hfind]
    dsimp only
    rw [if_pos hnd]
    exact find?_updateFirstById (f := fun _ => m2) hfind hm2id
  · rw [hm2r, hrs2]
    by_cases he : truthyOS emoji = true
    · rw [if_pos he, if_pos he, List.filter_append]
      have h1 : rs.filter (fun r => r.user == userId) = [] := by
        rw [List.filter_eq_nil_iff]
        intro r hr
        have := hrsne r hr
        simp only [bne_iff_ne, ne_eq] at this
        simp [this]
      rw [h1]
      simp
    · rw [if_neg he, if_neg he]
      rw [List.filter_eq_nil_iff]
      intro r hr
      have := hrsne r hr
      simp only [bne_iff_ne, ne_eq] at this
      simp [this]
  · rw [hm2r, hrs2]
    by_cases he : truthyOS emoji = true
    · rw [if_pos he, List.filter_append]
      have h1 : rs.filter (fun r => r.user != userId) = rs :=
        List.filter_eq_self.mpr hrsne
      have h2 : ([(⟨userId, emoji.getD ""⟩ : Reaction)].filter
          (fun r => r.user != userId)) = [] := by
        simp
      rw [h1, h2, List.append_nil, hrs]
    · rw [if_neg he, hrs]
      exact List.filter_eq_self.mpr hrsne
  · intro hinv
    rw [atMostOnePerUser, hm2r, hrs2]
    have hrsp : rs.Pairwise (fun a b => a.user ≠ b.user) :=
      hinv.sublist (List.filter_sublist _)
    by_cases he : truthyOS emoji = true
    · rw [if_pos he, List.pairwise_append]
      refine ⟨hrsp, List.pairwise_singleton _ _, ?_⟩
      intro a ha b hb
      rw [List.mem_singleton] at hb
      subst hb
      have := hrsne a ha
      simp only [bne_iff_ne, ne_eq] at this
      exact this
    · rw [if_neg he]
      exact hrsp

/-- C8 witness: the theorem instantiated at the stored message `mLive` with a
reaction `x` by `user_2`. -/
theorem c8_witness :
    ∃ m2, ((handleReaction [mLive] "m1" "user_2" (some "x")).1.find?
            (fun x => x._id == "m1") = some m2) ∧
      m2.reactions.filter (fun r => r.user == "user_2") = [⟨"user_2", "x"⟩] ∧
      m2.reactions.filter (fun r => r.user != "user_2")
        = mLive.reactions.filter (fun r => r.user != "user_2") ∧
      (atMostOnePerUser mLive.reactions → atMostOnePerUser m2.reactions) :=
  c8_reaction_replace [mLive] "m1" "user_2" (some "x") mLive rfl rfl

/-! ### Claim about presence on disconnect -/

/-- C10: presence removal on disconnect is keyed only by the connection's
remembered userId: after user u joins on socket A and joins again on socket B
(so the presence entry holds B), a disconnect of connection A deletes u's
presence entry entirely, leaving the still-connected user absent from the
table. -/
theorem c10_disconnect_removes_rejoined_user (store1 store2 : List Msg)
    (presence : List (String × String)) (u sockA sockB : String) (hu : u ≠ "") :
    plookup (handleJoin store2 (handleJoin store1 presence sockA u).1 sockB u).1 u
      = some sockB ∧
    plookup
      (handleDisconnect
        (handleJoin store2 (handleJoin store1 presence sockA u).1 sockB u).1
        (handleJoin store1 presence sockA u).2.1) u
      = none := by
  constructor
  · exact plookup_pinsert _ u sockB
  · show plookup (handleDisconnect (pinsert (pinsert presence u sockA) u sockB)
      (some u)) u = none
    unfold handleDisconnect
    dsimp only
    rw [if_pos (bne_iff_ne.mpr hu)]
    exact plookup_premove _ u

/-- C10 witness: the theorem instantiated at an empty table with user `u1`
joining on sockets `A` then `B` and `A` disconnecting. -/
theorem c10_witness :
    plookup (handleJoin [] (handleJoin [] [] "A" "u1").1 "B" "u1").1 "u1"
      = some "B" ∧
    plookup (handleDisconnect (handleJoin [] (handleJoin [] [] "A" "u1").1 "B" "u1").1
      (handleJoin [] [] "A" "u1").2.1) "u1" = none :=
  c10_disconnect_removes_rejoined_user [] [] [] "u1" "A" "B" (by decide)

end Relay
